import Mathlib

/-!
Shallow embedding of `src/log_viewer/src/main.rs` (gst_debugger log viewer).
Strings are modelled as `List Char` (Rust `String` / `&str`), `u64` values as
`Nat` (Rust's `parse::<u64>` range check is kept explicitly), `f64` frame-rate
values as exact rationals.  The four tracer-line regexes are modelled by a
small backtracking matcher with Rust's leftmost-first, greedy semantics.
-/

namespace GstDebugger

/-- Rust `str::split(c)`: splits on every occurrence of `c`; the empty string
yields one empty segment, adjacent separators yield empty segments. -/
def splitCh (c : Char) : List Char → List (List Char)
  | [] => [[]]
  | x :: xs =>
    match splitCh c xs with
    | [] => [[]]
    | y :: ys => if x = c then [] :: y :: ys else (x :: y) :: ys

/-- Value of a digit string, most significant digit first. -/
def natOfDigits (cs : List Char) : Nat :=
  cs.foldl (fun a c => a * 10 + (c.toNat - Char.toNat '0')) 0

/-- Rust `str::parse::<u64>()`: optional leading `+`, then one or more ASCII
digits, value at most `u64::MAX`; anything else is `Err` (modelled `none`). -/
def parseU64 (cs : List Char) : Option Nat :=
  let ds := if cs.head? = some '+' then cs.tail else cs
  if (!ds.isEmpty) && ds.all Char.isDigit then
    let v := natOfDigits ds
    if v < 18446744073709551616 then some v else none
  else none

/-- `fn parse_duration_to_ns(time_str: &str) -> Option<u64>` from the source:
split on `:` (must give exactly 3 parts), parse hours and minutes, split the
last part on `.`, parse seconds and the (optional, default `"0"`) fractional
part as a literal integer, and combine with the fixed decomposition.  The
source computes the decomposition in `u64`: on overflow a release build wraps
(modelled by the reduction mod 2^64 — per-operation wrapping composes to one
final reduction) and a debug build panics, so an overflowing decomposition
never yields the unbounded value either way. -/
def parseDurationToNsL (timeStr : List Char) : Option Nat :=
  let parts := splitCh ':' timeStr
  if parts.length ≠ 3 then none
  else do
    let hours ← parseU64 (parts.getD 0 [])
    let minutes ← parseU64 (parts.getD 1 [])
    let secsFrac := splitCh '.' (parts.getD 2 [])
    let s0 ← secsFrac.head?
    let seconds ← parseU64 s0
    let nanoseconds ← parseU64 (secsFrac.getD 1 ['0'])
    some ((hours * 3600000000000
      + minutes * 60000000000
      + seconds * 1000000000
      + nanoseconds) % 18446744073709551616)

def parse_duration_to_ns (timeStr : String) : Option Nat :=
  parseDurationToNsL timeStr.data

/-- `fn extract_element_name(pad_name: &str) -> String`:
`pad_name.split('_').next().unwrap_or(pad_name)`. -/
def extractElemL (cs : List Char) : List Char :=
  (splitCh '_' cs).headD cs

def extract_element_name (padName : String) : String :=
  String.mk (extractElemL padName.data)

/-- Rust `str::starts_with(pre)`. -/
def strStartsWith (s pre : String) : Bool :=
  pre.data.isPrefixOf s.data

/-- One item of a regex pattern, covering exactly the constructs used by the
four tracer grammars: a literal, `.*` (greedy, not matching a newline), and a
captured greedy one-or-more character class such as `(\S+)` or `(\d+)`. -/
inductive PatItem where
  | lit : List Char → PatItem
  | dotStar : PatItem
  | group : (Char → Bool) → PatItem

/-- Backtracking helper for `.*`: try dropping `k` characters first (greedy),
then fewer, down to zero; first continuation success wins. -/
def tryDrops (next : List Char → Option α) (s : List Char) : Nat → Option α
  | 0 => next s
  | k + 1 =>
    match next (s.drop (k + 1)) with
    | some r => some r
    | none => tryDrops next s k

/-- Backtracking helper for a captured one-or-more class: try capturing `k`
characters first (greedy), then fewer, down to one. -/
def tryTakes (next : List Char → List Char → Option α) (s : List Char) :
    Nat → Option α
  | 0 => none
  | k + 1 =>
    match next (s.take (k + 1)) (s.drop (k + 1)) with
    | some r => some r
    | none => tryTakes next s k

/-- Anchored match of a pattern at the start of `s`, with fuel (one unit per
pattern item suffices); returns the capture groups in order.  Greedy items try
the longest candidate first, as Rust's regex engine does. -/
def matchItemsF : Nat → List PatItem → List Char → Option (List (List Char))
  | 0, _, _ => none
  | fuel + 1, pats, s =>
    match pats with
    | [] => some []
    | .lit l :: rest =>
      if l.isPrefixOf s then matchItemsF fuel rest (s.drop l.length) else none
    | .dotStar :: rest =>
      tryDrops (matchItemsF fuel rest) s ((s.takeWhile (fun c => c ≠ '\n')).length)
    | .group p :: rest =>
      tryTakes (fun cap s' => (matchItemsF fuel rest s').map (fun cs => cap :: cs))
        s ((s.takeWhile p).length)

def matchItems (pats : List PatItem) (s : List Char) : Option (List (List Char)) :=
  matchItemsF (pats.length + 1) pats s

/-- Unanchored search, leftmost match first (Rust `Regex::captures`). -/
def searchPat (pats : List PatItem) : List Char → Option (List (List Char))
  | [] => matchItems pats []
  | c :: t =>
    match matchItems pats (c :: t) with
    | some caps => some caps
    | none => searchPat pats t

/-- Rust regex `\S`: a non-whitespace character. -/
def isNonWs (c : Char) : Bool := !c.isWhitespace

/-- Captures of `bitrate.*pad=\(string\)(\S+), bitrate=\(guint64\)(\d+);`. -/
def bitrateCaps (line : List Char) : Option (List Char × List Char) :=
  match searchPat
    [ .lit "bitrate".data, .dotStar, .lit "pad=(string)".data, .group isNonWs,
      .lit ", bitrate=(guint64)".data, .group Char.isDigit, .lit ";".data ] line with
  | some [c1, c2] => some (c1, c2)
  | _ => none

/-- Captures of `framerate.*pad=\(string\)(\S+), fps=\(uint\)(\d+);`. -/
def framerateCaps (line : List Char) : Option (List Char × List Char) :=
  match searchPat
    [ .lit "framerate".data, .dotStar, .lit "pad=(string)".data, .group isNonWs,
      .lit ", fps=(uint)".data, .group Char.isDigit, .lit ";".data ] line with
  | some [c1, c2] => some (c1, c2)
  | _ => none

/-- Captures of `proc_time, element=\(string\)(\S+), time=\(string\)(\S+);`. -/
def proctimeCaps (line : List Char) : Option (List Char × List Char) :=
  match searchPat
    [ .lit "proc_time, element=(string)".data, .group isNonWs,
      .lit ", time=(string)".data, .group isNonWs, .lit ";".data ] line with
  | some [c1, c2] => some (c1, c2)
  | _ => none

/-- Captures of
`interlatency.*from_pad=\(string\)(\S+), to_pad=\(string\)(\S+), time=\(string\)(\S+);`. -/
def interlatencyCaps (line : List Char) :
    Option (List Char × List Char × List Char) :=
  match searchPat
    [ .lit "interlatency".data, .dotStar, .lit "from_pad=(string)".data,
      .group isNonWs, .lit ", to_pad=(string)".data, .group isNonWs,
      .lit ", time=(string)".data, .group isNonWs, .lit ";".data ] line with
  | some [c1, c2, c3] => some (c1, c2, c3)
  | _ => none

/-- `struct TracingData` from the source.  The `f64` frame rate is modelled
as an exact rational (the captured `\d+` digit strings are integers). -/
structure TracingData where
  element : String
  bitrate : Option Nat
  framerate : Option ℚ
  proctime_ns : Option Nat
deriving DecidableEq

/-- `struct InterLatencyData` from the source (`from` and `to` are Lean
keywords, so the fields are `fromName` and `toName`). -/
structure InterLatencyData where
  fromName : String
  toName : String
  time : String
deriving DecidableEq

/-- `f64` value of a captured digit string (`caps[2].parse::<f64>()` on a
`\d+` capture always succeeds). -/
def ratOfDigits (cs : List Char) : ℚ :=
  (natOfDigits cs : ℚ)

/-- `fn parse_gst_tracer_output(line: &str) -> Option<TracingData>`: try the
bitrate, framerate and proc_time grammars in that order.  The `?` operator on
`caps[2].parse().ok()?` makes a failed numeric parse return `None` from the
whole function. -/
def parse_gst_tracer_output (line : String) : Option TracingData :=
  match bitrateCaps line.data with
  | some (pad, num) =>
    match parseU64 num with
    | some b => some ⟨extract_element_name (String.mk pad), some b, none, none⟩
    | none => none
  | none =>
    match framerateCaps line.data with
    | some (pad, num) =>
      some ⟨extract_element_name (String.mk pad), none, some (ratOfDigits num), none⟩
    | none =>
      match proctimeCaps line.data with
      | some (el, t) =>
        match parseDurationToNsL t with
        | some ns => some ⟨extract_element_name (String.mk el), none, none, some ns⟩
        | none => none
      | none => none

/-- The raw (pre-truncation) normalized `from` name of an inter-latency line:
`extract_element_name(&caps[1])`.  When it is empty, the source's
`from.truncate(from.len() - 1)` computes `0usize - 1`, which underflows. -/
def interlatencyFromRaw (line : String) : Option (List Char) :=
  (interlatencyCaps line.data).map (fun c => extractElemL c.1)

/-- `fn parse_interlatency(line: &str) -> Option<InterLatencyData>`.  The
`from.truncate(from.len() - 1)` is modelled with truncated subtraction, which
agrees with release-mode Rust (a wrapped, huge `new_len` makes `truncate` a
no-op on the already-empty name); the debug-mode underflow panic on an empty
name is exhibited separately via `interlatencyFromRaw`. -/
def parse_interlatency (line : String) : Option InterLatencyData :=
  match interlatencyCaps line.data with
  | some (fp, tp, t) =>
    let fromRaw := extractElemL fp
    let fromTrunc := fromRaw.take (fromRaw.length - 1)
    do
      let t1 ← (splitCh '.' tp).head?
      let toName ← (splitCh '_' t1).head?
      some ⟨String.mk fromTrunc, String.mk toName, String.mk t⟩
  | none => none

/-- One classified line of the ingestion loop in
`run_pipeline_with_tracing`: per-element data is tried first, the
inter-element latency grammar only when that produced nothing. -/
def classify (line : String) : Option (TracingData ⊕ InterLatencyData) :=
  match parse_gst_tracer_output line with
  | some d => some (Sum.inl d)
  | none => (parse_interlatency line).map Sum.inr

/-- The pipeline graph of `GstDebugger::new`: node ids in insertion order
(petgraph indices 0,1,2,…) and directed edges between node indices. -/
structure PipelineGraph where
  nodes : List String
  edges : List (Nat × Nat)
deriving DecidableEq

/-- Rust `str::trim`. -/
def trimL (cs : List Char) : List Char :=
  ((cs.dropWhile Char.isWhitespace).reverse.dropWhile Char.isWhitespace).reverse

/-- Rust `str::split_whitespace().next()`. -/
def firstTok? (cs : List Char) : Option (List Char) :=
  let afterWs := cs.dropWhile Char.isWhitespace
  if afterWs.isEmpty then none
  else some (afterWs.takeWhile (fun c => !c.isWhitespace))

/-- `trimmed.split_whitespace().next().unwrap_or(trimmed)` of the source. -/
def firstTokenOf (seg : List Char) : List Char :=
  let trimmed := trimL seg
  (firstTok? trimmed).getD trimmed

/-- `first_token.find('=')` handling of the source: everything after the
first `=` if there is one, the whole token otherwise. -/
def afterEq (tok : List Char) : List Char :=
  match tok.dropWhile (fun c => c ≠ '=') with
  | [] => tok
  | _ :: rest => rest

/-- The element id derived from one `!`-separated segment. -/
def deriveName (seg : List Char) : List Char :=
  afterEq (firstTokenOf seg)

/-- The node/edge loop of `GstDebugger::new`: one fresh node per element, an
edge from the previous node to the current one.  Arguments: previous node
index (if any), next fresh index, number of remaining elements. -/
def chainEdges : Option Nat → Nat → Nat → List (Nat × Nat)
  | _, _, 0 => []
  | none, i, n + 1 => chainEdges (some i) (i + 1) n
  | some p, i, n + 1 => (p, i) :: chainEdges (some i) (i + 1) n

/-- Graph construction of `GstDebugger::new`: split the pipeline description
on `!`, derive one element id per segment, add the nodes in order and chain
consecutive nodes with edges. -/
def buildGraph (pipeline : String) : PipelineGraph :=
  let elements := (splitCh '!' pipeline.data).map deriveName
  { nodes := elements.map String.mk
    edges := chainEdges none 0 elements.length }

/-- The per-node metric lookup of `GstDebugger::update`:
`logs.iter().rev().find(|e| e.element.starts_with(&element_name))` — reverse
insertion order, first (i.e. most recent) record whose stored element name
starts with the entity id. -/
def latest_for (logs : List TracingData) (element_name : String) : Option TracingData :=
  logs.reverse.find? (fun e => strStartsWith e.element element_name)

/-- The per-edge latency lookup of `GstDebugger::update`:
`inter.iter().rev().find(|lat| lat.from.starts_with(to_name))`. -/
def edgeLatency (inter : List InterLatencyData) (toName : String) :
    Option InterLatencyData :=
  inter.reverse.find? (fun lat => strStartsWith lat.fromName toName)

/-- The edge loop of `GstDebugger::update`: for every edge, the latency
record displayed on it, looked up with the edge's target node name
(`to_name = &self.graph[end]`). -/
def edgeBindings (g : PipelineGraph) (inter : List InterLatencyData) :
    List (Nat × Nat × Option InterLatencyData) :=
  g.edges.map (fun e => (e.1, e.2, edgeLatency inter (g.nodes.getD e.2 "")))

/-- The threshold test of `GstDebugger::update`:
`data.bitrate.unwrap_or(0) >= self.bitrate_threshold &&
 data.framerate.unwrap_or(0.0) >= self.framerate_threshold`. -/
def passes_threshold (d : TracingData) (bitrate_threshold : Nat)
    (framerate_threshold : ℚ) : Bool :=
  decide (d.bitrate.getD 0 ≥ bitrate_threshold)
    && decide (d.framerate.getD 0 ≥ framerate_threshold)

/-- The mathematically proportional nanosecond value of a duration whose
fractional part is read as a decimal fraction of a second (what digit-count
scaling would produce), for comparison with the source's literal reading. -/
def proportional_ns (h m s : Nat) (fs : List Char) : Nat :=
  h * 3600000000000 + m * 60000000000 + s * 1000000000
    + natOfDigits fs * 10 ^ (9 - fs.length)

lemma splitCh_cons (c x : Char) (xs : List Char) :
    splitCh c (x :: xs) = match splitCh c xs with
      | [] => [[]]
      | y :: ys => if x = c then [] :: y :: ys else (x :: y) :: ys := rfl

lemma splitCh_ne_nil (c : Char) (l : List Char) : splitCh c l ≠ [] := by
  cases l with
  | nil => simp [splitCh]
  | cons x xs =>
    rw [splitCh_cons]
    cases h : splitCh c xs with
    | nil => simp
    | cons y ys => by_cases hx : x = c <;> simp [hx]

lemma splitCh_append {c : Char} {xs : List Char} (ys : List Char)
    (hx : c ∉ xs) : splitCh c (xs ++ c :: ys) = xs :: splitCh c ys := by
  induction xs with
  | nil =>
    obtain ⟨y, ys', h⟩ := List.exists_cons_of_ne_nil (splitCh_ne_nil c ys)
    rw [List.nil_append, splitCh_cons, h]
    simp [← h]
  | cons a as ih =>
    have ha : a ≠ c := fun h => hx (h ▸ List.mem_cons_self a as)
    have hx' : c ∉ as := fun h => hx (List.mem_cons_of_mem _ h)
    rw [List.cons_append, splitCh_cons, ih hx']
    simp [ha]

lemma splitCh_no_sep {c : Char} {xs : List Char} (hx : c ∉ xs) :
    splitCh c xs = [xs] := by
  induction xs with
  | nil => simp [splitCh]
  | cons a as ih =>
    have ha : a ≠ c := fun h => hx (h ▸ List.mem_cons_self a as)
    have hx' : c ∉ as := fun h => hx (List.mem_cons_of_mem _ h)
    rw [splitCh_cons, ih hx']
    simp [ha]

lemma parseU64_ds {cs : List Char} {v : Nat} (h : parseU64 cs = some v) :
    (if cs.head? = some '+' then cs.tail else cs).all Char.isDigit = true := by
  unfold parseU64 at h
  cases hall : (if cs.head? = some '+' then cs.tail else cs).all Char.isDigit with
  | false => simp [hall] at h
  | true => rfl

lemma parseU64_chars {cs : List Char} {v : Nat} (h : parseU64 cs = some v) :
    ∀ x ∈ cs, x = '+' ∨ x.isDigit = true := by
  intro x hxx
  have hds := parseU64_ds h
  by_cases hp : cs.head? = some '+'
  · rcases cs with _ | ⟨c0, rest⟩
    · simp at hp
    · have hc0 : c0 = '+' := by simpa using hp
      subst hc0
      rw [if_pos hp] at hds
      rcases List.mem_cons.mp hxx with hx0 | hxr
      · exact Or.inl hx0
      · exact Or.inr ((List.all_eq_true.mp hds) x hxr)
  · rw [if_neg hp] at hds
    exact Or.inr ((List.all_eq_true.mp hds) x hxx)

lemma parseU64_no_colon {cs : List Char} {v : Nat} (h : parseU64 cs = some v) :
    ':' ∉ cs := by
  intro hm
  rcases parseU64_chars h _ hm with h1 | h1
  · exact absurd h1 (by decide)
  · exact absurd h1 (by decide)

lemma parseU64_no_dot {cs : List Char} {v : Nat} (h : parseU64 cs = some v) :
    '.' ∉ cs := by
  intro hm
  rcases parseU64_chars h _ hm with h1 | h1
  · exact absurd h1 (by decide)
  · exact absurd h1 (by decide)

lemma parseU64_digits {fs : List Char} (h1 : fs ≠ [])
    (h2 : fs.all Char.isDigit = true)
    (h3 : natOfDigits fs < 18446744073709551616) :
    parseU64 fs = some (natOfDigits fs) := by
  have hp : ¬ fs.head? = some '+' := by
    rcases fs with _ | ⟨c0, rest⟩
    · simp
    · have hc0 : c0.isDigit = true :=
        (List.all_eq_true.mp h2) c0 (List.mem_cons_self c0 rest)
      intro habs
      have : c0 = '+' := by simpa using habs
      subst this
      exact absurd hc0 (by decide)
  unfold parseU64
  rw [if_neg hp]
  simp [h1, h2, h3, List.isEmpty_iff]

lemma parseDuration_build {hs ms ss fs : List Char} {h m s f : Nat}
    (hh : parseU64 hs = some h) (hm : parseU64 ms = some m)
    (hsec : parseU64 ss = some s) (hf : parseU64 fs = some f) :
    parseDurationToNsL (hs ++ ':' :: (ms ++ ':' :: (ss ++ '.' :: fs)))
      = some ((h * 3600000000000 + m * 60000000000 + s * 1000000000 + f)
          % 18446744073709551616) := by
  have hns : ':' ∉ ss ++ '.' :: fs := by
    intro hmem
    rcases List.mem_append.mp hmem with hx | hx
    · exact parseU64_no_colon hsec hx
    · rcases List.mem_cons.mp hx with hx | hx
      · exact absurd hx (by decide)
      · exact parseU64_no_colon hf hx
  have hsplit : splitCh ':' (hs ++ ':' :: (ms ++ ':' :: (ss ++ '.' :: fs)))
      = [hs, ms, ss ++ '.' :: fs] := by
    rw [splitCh_append _ (parseU64_no_colon hh),
      splitCh_append _ (parseU64_no_colon hm), splitCh_no_sep hns]
  have hdot : splitCh '.' (ss ++ '.' :: fs) = [ss, fs] := by
    rw [splitCh_append _ (parseU64_no_dot hsec), splitCh_no_sep (parseU64_no_dot hf)]
  unfold parseDurationToNsL
  rw [hsplit]
  simp [hdot, hh, hm, hsec, hf]

lemma parseDuration_build_nodot {hs ms ss : List Char} {h m s : Nat}
    (hh : parseU64 hs = some h) (hm : parseU64 ms = some m)
    (hsec : parseU64 ss = some s) :
    parseDurationToNsL (hs ++ ':' :: (ms ++ ':' :: ss))
      = some ((h * 3600000000000 + m * 60000000000 + s * 1000000000)
          % 18446744073709551616) := by
  have hsplit : splitCh ':' (hs ++ ':' :: (ms ++ ':' :: ss)) = [hs, ms, ss] := by
    rw [splitCh_append _ (parseU64_no_colon hh),
      splitCh_append _ (parseU64_no_colon hm), splitCh_no_sep (parseU64_no_colon hsec)]
  have hdot : splitCh '.' ss = [ss] := splitCh_no_sep (parseU64_no_dot hsec)
  have h0 : parseU64 ['0'] = some 0 := by decide
  unfold parseDurationToNsL
  rw [hsplit]
  simp [hdot, hh, hm, hsec, h0]

lemma afterEq_of_not_mem {tok : List Char} (h : '=' ∉ tok) :
    afterEq tok = tok := by
  unfold afterEq
  have : tok.dropWhile (fun c => c ≠ '=') = [] := by
    rw [List.dropWhile_eq_nil_iff]
    intro x hx
    simp
    intro heq
    exact h (heq ▸ hx)
  rw [this]

lemma chainEdges_some (n : Nat) : ∀ i : Nat,
    chainEdges (some i) (i + 1) n = (List.range n).map (fun k => (i + k, i + k + 1)) := by
  induction n with
  | zero => intro i; simp [chainEdges]
  | succ n ih =>
    intro i
    rw [List.range_succ_eq_map]
    simp only [chainEdges, List.map_cons, List.map_map, Nat.add_zero]
    congr 1
    rw [ih (i + 1)]
    apply List.map_congr_left
    intro k _
    simp [Function.comp]
    omega

lemma chainEdges_none (n : Nat) :
    chainEdges none 0 n = (List.range (n - 1)).map (fun k => (k, k + 1)) := by
  cases n with
  | zero => simp [chainEdges]
  | succ n =>
    show chainEdges (some 0) (0 + 1) n = _
    rw [chainEdges_some n 0]
    simp

/-- C1 (counterexample): the update loop matches the record's `from` field,
not its `to` field, against the edge's target node id.  With graph
`a ! b` (single edge, target node `"b"`), a record whose `to` name `"b_0"`
starts with `"b"` but whose `from` does not is NOT bound to the edge, while a
record whose `from` name starts with `"b"` is — refuting the claim that the
`to` field is the one matched. -/
theorem C1_counterexample :
    edgeBindings (buildGraph "a ! b") [⟨"zzz", "b_0", "5"⟩] = [(0, 1, none)] ∧
    edgeBindings (buildGraph "a ! b") [⟨"b_0", "zzz", "5"⟩]
      = [(0, 1, some ⟨"b_0", "zzz", "5"⟩)] := by
  constructor
  · decide
  · decide

/-- C1 (amended): every InterElementLatency record displayed on an edge is
one whose `from` raw name starts with the edge's target node id, and an edge
shows a record exactly when some stored record's `from` name starts with the
target node id: the `from` field, not the `to` field, is the one matched. -/
theorem C1_latency_edge_binding (g : PipelineGraph)
    (inter : List InterLatencyData) (a b : Nat) (o : Option InterLatencyData)
    (hmem : (a, b, o) ∈ edgeBindings g inter) :
    (∀ r, o = some r → strStartsWith r.fromName (g.nodes.getD b "") = true) ∧
    (o.isSome = true ↔ ∃ r ∈ inter, strStartsWith r.fromName (g.nodes.getD b "") = true) := by
  unfold edgeBindings at hmem
  rw [List.mem_map] at hmem
  obtain ⟨e, _, heq⟩ := hmem
  rw [Prod.ext_iff] at heq
  obtain ⟨_, heq2⟩ := heq
  rw [Prod.ext_iff] at heq2
  obtain ⟨hb, ho⟩ := heq2
  simp only at hb ho
  subst hb
  rw [← ho]
  unfold edgeLatency
  constructor
  · intro r hr
    have h2 := @List.find?_some _
      (fun lat => strStartsWith lat.fromName (g.nodes.getD e.2 "")) r inter.reverse hr
    simpa using h2
  · rw [List.find?_isSome]
    constructor
    · rintro ⟨x, hx, hpx⟩
      exact ⟨x, List.mem_reverse.mp hx, hpx⟩
    · rintro ⟨x, hx, hpx⟩
      exact ⟨x, List.mem_reverse.mpr hx, hpx⟩

theorem C1_witness :
    strStartsWith (InterLatencyData.mk "b_0" "zzz" "5").fromName
      ((buildGraph "a ! b").nodes.getD 1 "") = true := by
  have h := C1_latency_edge_binding (buildGraph "a ! b") [⟨"b_0", "zzz", "5"⟩]
    0 1 (some ⟨"b_0", "zzz", "5"⟩) (by decide)
  exact h.1 _ rfl

/-- C2 (counterexample): the throughput regex
`bitrate.*pad=\(string\)(\S+), bitrate=\(guint64\)(\d+);` requires the token
`bitrate` before the pad field, so the bare line of the claim matches no
grammar at all and yields no record. -/
theorem C2_counterexample :
    parse_gst_tracer_output "pad=(string)sink_0, bitrate=(guint64)128000;" = none := by
  decide

/-- C2 (amended): on a line where the throughput grammar does match, the
record's element field is the normalized name `"sink"` (normalization happens
at construction time via `extract_element_name`, the raw `"sink_0"` is not
kept) with 128000 bits per second; normalizing `"sink_0"` yields `"sink"`. -/
theorem C2_throughput_line :
    parse_gst_tracer_output "bitrate, pad=(string)sink_0, bitrate=(guint64)128000;"
        = some ⟨"sink", some 128000, none, none⟩ ∧
      extract_element_name "sink_0" = "sink" := by
  constructor
  · decide
  · decide

/-- C3 (counterexample): building the graph from the empty description does
not yield zero nodes: `"".split('!')` produces one empty segment, so the
graph contains one node whose id is the empty string. -/
theorem C3_counterexample : (buildGraph "").nodes = [""] := by
  decide

/-- C3 (amended): building the pipeline graph from the empty description
string yields (without an error) a graph with exactly one node, whose id is
the empty string, and zero edges. -/
theorem C3_empty_pipeline :
    buildGraph "" = { nodes := [""], edges := [] } := by
  decide

/-- C4 (counterexample): the source computes the decomposition in `u64`,
whose maximum is 18_446_744_073_709_551_615, while hours alone parse up to
that maximum.  At `"6000000:00:00.0"` the decomposition value would be
21_600_000_000_000_000_000 > u64::MAX: a release build wraps to
3_153_255_926_290_448_384 (a debug build panics on the overflow), so the
derived value is NOT `hours*3_600_000_000_000 + …` — refuting the claim's
universal "for every duration string whose components all parse". -/
theorem C4_counterexample :
    parse_duration_to_ns "6000000:00:00.0" = some 3153255926290448384 ∧
    (3153255926290448384 : Nat)
      ≠ 6000000 * 3600000000000 + 0 * 60000000000 + 0 * 1000000000 + 0 := by
  constructor
  · decide
  · decide

/-- C4 (amended): for every duration string of shape `H:MM:SS.fraction`
whose components all parse as (non-negative) u64 integers and whose
decomposition value fits in u64, the derived nanosecond value is exactly
`hours*3_600_000_000_000 + minutes*60_000_000_000 + seconds*1_000_000_000 +
fractional_nanoseconds` (beyond u64 the arithmetic wraps in release builds
and panics in debug builds, never producing the decomposition value); in
particular `"01:02:03.500000000"` yields `3_723_500_000_000`; and when the
proc_time grammar matches with a malformed duration (and no earlier grammar
matched), no record at all is produced, rather than a zero-filled one. -/
theorem C4_duration_decomposition :
    (∀ (hs ms ss fs : List Char) (h m s f : Nat),
      parseU64 hs = some h → parseU64 ms = some m → parseU64 ss = some s →
      parseU64 fs = some f →
      h * 3600000000000 + m * 60000000000 + s * 1000000000 + f
          < 18446744073709551616 →
      parseDurationToNsL (hs ++ ':' :: (ms ++ ':' :: (ss ++ '.' :: fs)))
        = some (h * 3600000000000 + m * 60000000000 + s * 1000000000 + f)) ∧
    parse_duration_to_ns "01:02:03.500000000" = some 3723500000000 ∧
    (∀ (line : String) (el t : List Char),
      bitrateCaps line.data = none → framerateCaps line.data = none →
      proctimeCaps line.data = some (el, t) → parseDurationToNsL t = none →
      parse_gst_tracer_output line = none) := by
  refine ⟨?_, by decide, ?_⟩
  · intro hs ms ss fs h m s f hh hm hsec hf hlt
    rw [parseDuration_build hh hm hsec hf, Nat.mod_eq_of_lt hlt]
  · intro line el t hb hfr hp ht
    unfold parse_gst_tracer_output
    rw [hb, hfr, hp]
    simp [ht]

theorem C4_witness :
    parseDurationToNsL ("01".data ++ ':' :: ("02".data ++ ':' :: ("03".data ++ '.' :: "500000000".data)))
      = some 3723500000000 := by
  have h := C4_duration_decomposition.1 "01".data "02".data "03".data "500000000".data
    1 2 3 500000000 (by decide) (by decide) (by decide) (by decide) (by norm_num)
  simpa using h

/-- The threshold predicate as the claim states it: an absent bitrate or
framerate field satisfies that field's bound regardless of the configured
threshold value. -/
def passes_claimed (d : TracingData) (bitrate_threshold : Nat)
    (framerate_threshold : ℚ) : Bool :=
  (match d.bitrate with
   | none => true
   | some b => decide (b ≥ bitrate_threshold))
  && (match d.framerate with
      | none => true
      | some fr => decide (fr ≥ framerate_threshold))

/-- C5 (counterexample): the source evaluates
`data.bitrate.unwrap_or(0) >= self.bitrate_threshold`, so a record with both
fields absent fails a positive min-bitrate threshold, while the claimed
predicate (absence always satisfies the bound) passes it. -/
theorem C5_counterexample :
    passes_threshold ⟨"e", none, none, none⟩ 1 0 = false ∧
    passes_claimed ⟨"e", none, none, none⟩ 1 0 = true := by
  constructor
  · decide
  · decide

/-- C5 (amended): the threshold predicate passes a node metric iff
`bitrate.unwrap_or(0) ≥ min_bitrate` and `framerate.unwrap_or(0) ≥
min_framerate`: an absent bitrate field is treated as the value 0 and
satisfies its bound only when `min_bitrate = 0` (and an absent framerate only
when `min_framerate ≤ 0`), not regardless of the configured threshold. -/
theorem C5_threshold_predicate (d : TracingData) (tb : Nat) (tf : ℚ) :
    (passes_threshold d tb tf = true ↔
      tb ≤ d.bitrate.getD 0 ∧ tf ≤ d.framerate.getD 0) ∧
    (d.bitrate = none →
      (passes_threshold d tb tf = true ↔ tb = 0 ∧ tf ≤ d.framerate.getD 0)) ∧
    (d.framerate = none →
      (passes_threshold d tb tf = true ↔ tb ≤ d.bitrate.getD 0 ∧ tf ≤ 0)) := by
  refine ⟨?_, ?_, ?_⟩
  · unfold passes_threshold
    simp [Bool.and_eq_true]
  · intro hb
    unfold passes_threshold
    rw [hb]
    simp [Bool.and_eq_true, Nat.le_zero]
  · intro hf
    unfold passes_threshold
    rw [hf]
    simp [Bool.and_eq_true]

theorem C5_witness :
    passes_threshold ⟨"e", some 5, some 10, none⟩ 5 10 = true := by
  exact (C5_threshold_predicate ⟨"e", some 5, some 10, none⟩ 5 10).1.mpr
    ⟨by decide, by decide⟩

/-- C6: `latest_for` scans the stored sequence in reverse insertion order and
returns the first record whose stored (normalized) name starts with the
entity id, so the most recently recorded matching entry wins: any record
matching the entity and followed only by non-matching records is the query's
result. -/
theorem C6_latest_for_most_recent (pre post : List TracingData)
    (a : TracingData) (entity : String)
    (ha : strStartsWith a.element entity = true)
    (hpost : ∀ x ∈ post, strStartsWith x.element entity = false) :
    latest_for (pre ++ a :: post) entity = some a := by
  unfold latest_for
  rw [List.reverse_append, List.reverse_cons, List.append_assoc,
    List.find?_append, List.find?_append]
  have hnone : post.reverse.find? (fun e => strStartsWith e.element entity) = none := by
    rw [List.find?_eq_none]
    intro x hx
    simp [hpost x (List.mem_reverse.mp hx)]
  rw [hnone]
  simp [List.find?_cons_of_pos _ ha]
  exact Or.inl ha

/-- C6 witness: with two matching records `A@t1` (bitrate 100) then `A@t2`
(bitrate 200) recorded in that order, the query returns the record at `t2`. -/
theorem C6_witness :
    latest_for [⟨"sink", some 100, none, none⟩, ⟨"sink", some 200, none, none⟩] "sink"
      = some ⟨"sink", some 200, none, none⟩ := by
  exact C6_latest_for_most_recent [⟨"sink", some 100, none, none⟩] []
    ⟨"sink", some 200, none, none⟩ "sink" (by decide) (by intro x hx; simp at hx)

/-- C7: for every pipeline description whose `!`-separated segments carry
only simple element tokens (first token without `=`), the built graph has one
node per segment, in segment order, with ids the segments' first tokens, and
exactly `segments-1` edges forming the path `0→1→…→n-1`; in particular
`"audiotestsrc ! queue ! autoaudiosink"` yields those three nodes and the two
chain edges. -/
theorem C7_chain_graph :
    (∀ (desc : String),
      (∀ seg ∈ splitCh '!' desc.data, '=' ∉ firstTokenOf seg) →
      (buildGraph desc).nodes
          = (splitCh '!' desc.data).map (fun seg => String.mk (firstTokenOf seg)) ∧
        (buildGraph desc).nodes.length = (splitCh '!' desc.data).length ∧
        (buildGraph desc).edges
          = (List.range ((splitCh '!' desc.data).length - 1)).map (fun k => (k, k + 1))) ∧
    buildGraph "audiotestsrc ! queue ! autoaudiosink"
      = { nodes := ["audiotestsrc", "queue", "autoaudiosink"]
          edges := [(0, 1), (1, 2)] } := by
  constructor
  · intro desc hsimple
    have hnodes : (buildGraph desc).nodes
        = (splitCh '!' desc.data).map (fun seg => String.mk (firstTokenOf seg)) := by
      unfold buildGraph
      simp only [List.map_map]
      apply List.map_congr_left
      intro seg hseg
      simp [Function.comp, deriveName, afterEq_of_not_mem (hsimple seg hseg)]
    refine ⟨hnodes, ?_, ?_⟩
    · rw [hnodes, List.length_map]
    · unfold buildGraph
      simp only [List.length_map]
      exact chainEdges_none _
  · decide

theorem C7_witness :
    (buildGraph "audiotestsrc ! queue ! autoaudiosink").nodes
      = (splitCh '!' "audiotestsrc ! queue ! autoaudiosink".data).map
          (fun seg => String.mk (firstTokenOf seg)) := by
  exact (C7_chain_graph.1 "audiotestsrc ! queue ! autoaudiosink" (by decide)).1

/-- The classifier as the claim describes it: each of the four grammars is
attempted in priority order, and a grammar whose captured numeric field fails
to parse counts as a non-match, after which the later grammars still decide
the result. -/
def classify_claimed (line : String) : Option (TracingData ⊕ InterLatencyData) :=
  let throughput : Option TracingData :=
    (bitrateCaps line.data).bind (fun pn => (parseU64 pn.2).map (fun b =>
      TracingData.mk (extract_element_name (String.mk pn.1)) (some b) none none))
  match throughput with
  | some d => some (Sum.inl d)
  | none =>
    let fr : Option TracingData :=
      (framerateCaps line.data).map (fun pn =>
        TracingData.mk (extract_element_name (String.mk pn.1)) none
          (some (ratOfDigits pn.2)) none)
    match fr with
    | some d => some (Sum.inl d)
    | none =>
      let pt : Option TracingData :=
        (proctimeCaps line.data).bind (fun et => (parseDurationToNsL et.2).map (fun ns =>
          TracingData.mk (extract_element_name (String.mk et.1)) none none (some ns)))
      match pt with
      | some d => some (Sum.inl d)
      | none => (parse_interlatency line).map Sum.inr

/-- C8 (counterexample): on a line matching both the throughput grammar (with
a bitrate of 2^64, which overflows `u64` and fails to parse) and the
frame-rate grammar, the source's `?` operator aborts the whole per-element
parser, yielding no record — the later grammars do not decide the result as
the claim says they would. -/
theorem C8_counterexample :
    classify "bitrate pad=(string)a, bitrate=(guint64)18446744073709551616; framerate pad=(string)b, fps=(uint)30;"
        = none ∧
      classify_claimed "bitrate pad=(string)a, bitrate=(guint64)18446744073709551616; framerate pad=(string)b, fps=(uint)30;"
        = some (Sum.inl ⟨"b", none, some 30, none⟩) := by
  constructor
  · decide
  · decide

/-- C8 (amended): the classifier attempts throughput, then frame-rate, then
processing-time, then inter-element latency, returning the first match; but a
throughput match whose numeric field fails to parse aborts the per-element
parser with no record (frame-rate and processing-time are not attempted; only
the inter-element latency grammar, living in a separate function, still
decides), a processing-time match with a malformed duration likewise yields
no per-element record, and a line matching no grammar yields no record — all
without panicking. -/
theorem C8_priority_order (line : String) :
    (∀ pad num b, bitrateCaps line.data = some (pad, num) → parseU64 num = some b →
      classify line
        = some (Sum.inl ⟨extract_element_name (String.mk pad), some b, none, none⟩)) ∧
    (∀ pad num, bitrateCaps line.data = some (pad, num) → parseU64 num = none →
      parse_gst_tracer_output line = none ∧
        classify line = (parse_interlatency line).map Sum.inr) ∧
    (∀ pad num, bitrateCaps line.data = none →
      framerateCaps line.data = some (pad, num) →
      classify line
        = some (Sum.inl ⟨extract_element_name (String.mk pad), none, some (ratOfDigits num), none⟩)) ∧
    (∀ el t ns, bitrateCaps line.data = none → framerateCaps line.data = none →
      proctimeCaps line.data = some (el, t) → parseDurationToNsL t = some ns →
      classify line
        = some (Sum.inl ⟨extract_element_name (String.mk el), none, none, some ns⟩)) ∧
    (∀ el t, bitrateCaps line.data = none → framerateCaps line.data = none →
      proctimeCaps line.data = some (el, t) → parseDurationToNsL t = none →
      classify line = (parse_interlatency line).map Sum.inr) ∧
    (bitrateCaps line.data = none → framerateCaps line.data = none →
      proctimeCaps line.data = none →
      classify line = (parse_interlatency line).map Sum.inr) ∧
    (bitrateCaps line.data = none → framerateCaps line.data = none →
      proctimeCaps line.data = none → interlatencyCaps line.data = none →
      classify line = none) := by
  refine ⟨?_, ?_, ?_, ?_, ?_, ?_, ?_⟩
  · intro pad num b hb hn
    unfold classify parse_gst_tracer_output
    simp [hb, hn]
  · intro pad num hb hn
    have hout : parse_gst_tracer_output line = none := by
      unfold parse_gst_tracer_output
      simp [hb, hn]
    refine ⟨hout, ?_⟩
    unfold classify
    rw [hout]
  · intro pad num hb hf
    unfold classify parse_gst_tracer_output
    rw [hb, hf]
  · intro el t ns hb hf hp ht
    unfold classify parse_gst_tracer_output
    simp [hb, hf, hp, ht]
  · intro el t hb hf hp ht
    have hout : parse_gst_tracer_output line = none := by
      unfold parse_gst_tracer_output
      simp [hb, hf, hp, ht]
    unfold classify
    rw [hout]
  · intro hb hf hp
    have hout : parse_gst_tracer_output line = none := by
      unfold parse_gst_tracer_output
      rw [hb, hf, hp]
    unfold classify
    rw [hout]
  · intro hb hf hp hi
    have hout : parse_gst_tracer_output line = none := by
      unfold parse_gst_tracer_output
      rw [hb, hf, hp]
    have hlat : parse_interlatency line = none := by
      unfold parse_interlatency
      rw [hi]
    unfold classify
    rw [hout, hlat]
    rfl

theorem C8_witness :
    classify "framerate, pad=(string)video_0, fps=(uint)30;"
      = some (Sum.inl ⟨"video", none, some 30, none⟩) := by
  have h := (C8_priority_order "framerate, pad=(string)video_0, fps=(uint)30;").2.2.1
    "video_0".data "30".data (by decide) (by decide)
  simpa using h

/-- C9: on an inter-latency line whose `from_pad` token begins with an
underscore, the normalized `from` name (`extract_element_name(&caps[1])`) is
the empty string, so the source's `from.truncate(from.len() - 1)` computes
`0usize - 1`: the subtraction underflows (a panic in debug builds; in release
the wrapped length makes `truncate` a no-op and the empty name is kept, as
the second conjunct shows) — the truncation is not well-defined there, contra
the claim. -/
theorem C9_empty_from_underflow :
    interlatencyFromRaw "interlatency: from_pad=(string)_a, to_pad=(string)b_0, time=(string)123;"
        = some [] ∧
      parse_interlatency "interlatency: from_pad=(string)_a, to_pad=(string)b_0, time=(string)123;"
        = some ⟨"", "b", "123"⟩ := by
  constructor
  · decide
  · decide

/-- C10 (counterexample): the duration `"0:00:01.0"` has a fractional part
with fewer than nine digits, yet the parsed value (1_000_000_000 ns) is
exactly the mathematically proportional value — refuting the claim that for
every fraction with fewer than nine digits the result is not the
proportional value. -/
theorem C10_counterexample :
    parse_duration_to_ns "0:00:01.0" = some (proportional_ns 0 0 1 ['0']) := by
  decide

/-- C10 (amended): the fractional part is parsed as a literal integer count
of nanoseconds and added without digit-count scaling (in u64; the statements
below carry a fits-in-u64 bound, beyond which the source wraps or panics
instead), so for every fraction with fewer than nine digits and a nonzero
value the result differs from the mathematically proportional value
(`"0:00:01.5"` yields 1_000_000_005 ns, not 1_500_000_000 ns), while a
zero-valued fraction coincides with it; and a duration string with no `.` is
accepted with zero fractional nanoseconds. -/
theorem C10_literal_fraction :
    (∀ (hs ms ss fs : List Char) (h m s : Nat),
      parseU64 hs = some h → parseU64 ms = some m → parseU64 ss = some s →
      fs ≠ [] → fs.all Char.isDigit = true →
      natOfDigits fs < 18446744073709551616 →
      fs.length < 9 → natOfDigits fs ≠ 0 →
      h * 3600000000000 + m * 60000000000 + s * 1000000000 + natOfDigits fs
          < 18446744073709551616 →
      parseDurationToNsL (hs ++ ':' :: (ms ++ ':' :: (ss ++ '.' :: fs)))
          = some (h * 3600000000000 + m * 60000000000 + s * 1000000000 + natOfDigits fs) ∧
        h * 3600000000000 + m * 60000000000 + s * 1000000000 + natOfDigits fs
          ≠ proportional_ns h m s fs) ∧
    parse_duration_to_ns "0:00:01.5" = some 1000000005 ∧
    (∀ (hs ms ss : List Char) (h m s : Nat),
      parseU64 hs = some h → parseU64 ms = some m → parseU64 ss = some s →
      h * 3600000000000 + m * 60000000000 + s * 1000000000
          < 18446744073709551616 →
      parseDurationToNsL (hs ++ ':' :: (ms ++ ':' :: ss))
        = some (h * 3600000000000 + m * 60000000000 + s * 1000000000)) := by
  refine ⟨?_, by decide, ?_⟩
  · intro hs ms ss fs h m s hh hm hsec hne hdig hlt hlen hnz hfit
    have hf : parseU64 fs = some (natOfDigits fs) := parseU64_digits hne hdig hlt
    refine ⟨by rw [parseDuration_build hh hm hsec hf, Nat.mod_eq_of_lt hfit], ?_⟩
    unfold proportional_ns
    have hpow : 10 ≤ 10 ^ (9 - fs.length) := by
      calc 10 = 10 ^ 1 := by norm_num
      _ ≤ 10 ^ (9 - fs.length) := Nat.pow_le_pow_right (by norm_num) (by omega)
    have : natOfDigits fs < natOfDigits fs * 10 ^ (9 - fs.length) := by
      calc natOfDigits fs < natOfDigits fs * 10 := by omega
      _ ≤ natOfDigits fs * 10 ^ (9 - fs.length) :=
        Nat.mul_le_mul_left _ hpow
    omega
  · intro hs ms ss h m s hh hm hsec hfit
    rw [parseDuration_build_nodot hh hm hsec, Nat.mod_eq_of_lt hfit]

theorem C10_witness :
    parseDurationToNsL ("0".data ++ ':' :: ("00".data ++ ':' :: ("01".data ++ '.' :: "5".data)))
        = some 1000000005 ∧
      (1000000005 : Nat) ≠ proportional_ns 0 0 1 "5".data := by
  have h := C10_literal_fraction.1 "0".data "00".data "01".data "5".data 0 0 1
    (by decide) (by decide) (by decide) (by decide) (by decide) (by decide)
    (by decide) (by decide) (by decide)
  constructor
  · have h1 := h.1
    simpa using h1
  · have h2 := h.2
    simpa using h2

end GstDebugger

